/-
Verification of the kubescaler reconciliation operator (src/operator.py)
against its natural-language specification.

The Python source is shallowly embedded: pure string manipulation is
translated to Lean functions over `String`, the `datetime` value is a
record of calendar fields (the weekday is derived from the date with
Sakamoto's algorithm, as Python's `datetime.strftime('%a')` derives it),
and the Kubernetes API calls made by the orchestrator are reified as an
explicit list of attempted actions so that ordering properties can be
stated.
-/
import Mathlib

namespace Kubescaler

/-! ### Python datetime model

`datetime.datetime` values are modelled by their calendar fields.
`microsecond` is carried because `strftime` formats drop it, which
matters for backup-name collision analysis. -/

structure PyDateTime where
  year : Nat
  month : Nat
  day : Nat
  hour : Nat
  minute : Nat
  second : Nat
  microsecond : Nat
deriving DecidableEq

/-- Zero-pad a number to two digits, as Python `%H`, `%M`, `%S`, `%m`, `%d`. -/
def pad2 (n : Nat) : String :=
  if n < 10 then "0" ++ toString n else toString n

/-- Zero-pad a number to four digits, as Python `%Y`. -/
def pad4 (n : Nat) : String :=
  if n < 10 then "000" ++ toString n
  else if n < 100 then "00" ++ toString n
  else if n < 1000 then "0" ++ toString n
  else toString n

/-- Python `now.strftime('%H:%M')`. -/
def strftimeHM (dt : PyDateTime) : String :=
  pad2 dt.hour ++ ":" ++ pad2 dt.minute

/-- Python `now.strftime('%Y')`. -/
def strftimeY (dt : PyDateTime) : String := pad4 dt.year

/-- Python `now.strftime('%b').lower()`: lowercase three-letter month name. -/
def strftimeMonthAbbrev (dt : PyDateTime) : String :=
  ["jan", "feb", "mar", "apr", "may", "jun",
   "jul", "aug", "sep", "oct", "nov", "dec"].getD (dt.month - 1) "jan"

/-- Day of week from the date (0 = Sunday), Sakamoto's algorithm; this is
the value Python's `datetime` derives for `strftime('%a')`. -/
def sakamotoDow (y m d : Nat) : Nat :=
  let t := [0, 3, 2, 5, 0, 3, 5, 1, 4, 6, 2, 4]
  let y2 := if m < 3 then y - 1 else y
  (y2 + y2 / 4 - y2 / 100 + y2 / 400 + t.getD (m - 1) 0 + d) % 7

/-- Python `now.strftime('%a').lower()`: lowercase three-letter weekday name. -/
def strftimeDayAbbrev (dt : PyDateTime) : String :=
  ["sun", "mon", "tue", "wed", "thu", "fri", "sat"].getD
    (sakamotoDow dt.year dt.month dt.day) "sun"

/-! ### String helpers mirroring Python built-ins

All are structurally recursive over the character list of the string, so
that concrete schedules evaluate inside the kernel. -/

/-- Python `sub in s` (substring containment). -/
def strContains (s sub : String) : Bool :=
  (List.range (s.data.length + 1)).any
    (fun i => sub.data.isPrefixOf (s.data.drop i))

/-- Python `s.startswith(pre)`. -/
def strStartsWith (s pre : String) : Bool :=
  pre.data.isPrefixOf s.data

/-- Split a character list at every occurrence of `sep`; Python
`str.split(sep)` semantics (the split of the empty string is `[""]`). -/
def splitCh (sep : Char) : List Char → List (List Char)
  | [] => [[]]
  | c :: cs =>
    let r := splitCh sep cs
    if c == sep then [] :: r
    else
      match r with
      | [] => [[c]]
      | h :: t => (c :: h) :: t

/-- Python `s.split(sep)` for a one-character separator. -/
def pySplit (s : String) (sep : Char) : List String :=
  (splitCh sep s.data).map String.mk

/-- ASCII whitespace, the characters Python `str.strip()` removes from
the annotation tokens. -/
def isSpaceCh (c : Char) : Bool :=
  c == ' ' || c == '\t' || c == '\n' || c == '\r'

/-- Python `s.strip()`. -/
def pyTrim (s : String) : String :=
  ⟨((s.data.dropWhile isSpaceCh).reverse.dropWhile isSpaceCh).reverse⟩

/-- ASCII lowercasing of one character, as Python `str.lower()` does on
the annotation alphabet. -/
def toLowerCh (c : Char) : Char :=
  if 65 ≤ c.toNat && c.toNat ≤ 90 then Char.ofNat (c.toNat + 32) else c

/-- Python `s.lower()`. -/
def pyLower (s : String) : String := ⟨s.data.map toLowerCh⟩

/-- Python `s[:n]`. -/
def pyTake (s : String) (n : Nat) : String := ⟨s.data.take n⟩

/-- Python `not s` on a string: true when it is empty. -/
def pyIsEmpty (s : String) : Bool := s.data.isEmpty

/-- Python `c in s` for a single character. -/
def strContainsChar (s : String) (c : Char) : Bool := s.data.contains c

/-! ### Schedule parsing (`parse_schedule`, operator.py lines 127-173) -/

/-- The non-time fields accumulated while classifying tokens. -/
structure Spec4 where
  year : String
  month : String
  day : String
  date : String
deriving DecidableEq

/-- The parsed schedule: the tuple returned by `parse_schedule`. -/
structure ScheduleSpec where
  year : String
  month : String
  day : String
  date : String
  time : Option String
deriving DecidableEq

/-- The month abbreviations used by the token classifier. -/
def monthNames : List String :=
  ["jan", "feb", "mar", "apr", "may", "jun",
   "jul", "aug", "sep", "oct", "nov", "dec"]

/-- Classification category of one schedule token. -/
inductive TokCat where
  | year
  | month
  | dow
  | dom
  | skip
deriving DecidableEq

/-- Shape-based classification of one trimmed, lowercased token,
mirroring the if/elif chain of operator.py lines 155-171: empty tokens
and tokens matching no rule are skipped. -/
def tokCat (part : String) : TokCat :=
  if pyIsEmpty part then .skip
  else if part.data.length = 4 && part.data.all Char.isDigit then .year
  else if part.data.any Char.isAlpha then
    if monthNames.any (fun m => strContains part m) then .month else .dow
  else if part.data.all (fun c => c.isDigit || c == ',') then .dom
  else .skip

/-- Apply one classified token to the accumulated fields (last one wins). -/
def applyTok (a : Spec4) (part : String) : Spec4 :=
  match tokCat part with
  | .year => { a with year := part }
  | .month => { a with month := part }
  | .dow => { a with day := part }
  | .dom => { a with date := part }
  | .skip => a

/-- Split a non-empty annotation into its classification tokens and the
optional time token: semicolon split, trim, lowercase; if the last part
contains a colon it is the time and is removed (operator.py lines 145-151). -/
def tokensAndTime (s : String) : List String × Option String :=
  let parts := (pySplit s ';').map (fun p => pyLower (pyTrim p))
  match parts.getLast? with
  | some last =>
    if strContainsChar last ':' then (parts.dropLast, some last) else (parts, none)
  | none => (parts, none)

/-- `parse_schedule` (operator.py lines 127-173). -/
def parse_schedule (s : String) : ScheduleSpec :=
  if pyIsEmpty s then ⟨"*", "*", "*", "*", none⟩
  else
    let tt := tokensAndTime s
    let f := tt.1.foldl applyTok ⟨"*", "*", "*", "*"⟩
    ⟨f.year, f.month, f.day, f.date, tt.2⟩

/-! ### Schedule evaluation (`is_schedule_active`, operator.py lines 176-225) -/

/-- The month / day-of-week test: split the spec on commas, trim each
token, and prefix-match the current abbreviation against the first three
characters of some token (operator.py lines 207-208 and 214-215). -/
def specListMatches (spec current : String) : Bool :=
  ((pySplit spec ',').map pyTrim).any
    (fun m => strStartsWith current (pyTake m 3))

/-- The day-of-month test: the unpadded current day must be one of the
comma-separated tokens (operator.py lines 221-222). -/
def dateListContains (spec : String) (day : Nat) : Bool :=
  ((pySplit spec ',').map pyTrim).contains (toString day)

/-- The five checks of `is_schedule_active` applied to a parsed spec
(operator.py lines 195-225). -/
def scheduleActiveSpec (sp : ScheduleSpec) (now : PyDateTime) : Bool :=
  match sp.time with
  | none => false
  | some t =>
    if strftimeHM now != t then false
    else if sp.year != "*" && strftimeY now != sp.year then false
    else if sp.month != "*" && !(specListMatches sp.month (strftimeMonthAbbrev now)) then false
    else if sp.day != "*" && !(specListMatches sp.day (strftimeDayAbbrev now)) then false
    else if sp.date != "*" && !(dateListContains sp.date now.day) then false
    else true

/-- `is_schedule_active` (operator.py lines 176-225): an empty annotation
never matches; otherwise parse and run the five checks. -/
def is_schedule_active (s : String) (now : PyDateTime) : Bool :=
  if pyIsEmpty s then false
  else scheduleActiveSpec (parse_schedule s) now

/-- The annotation handed to `is_schedule_active` may be absent
(`annotations.get` returns `None`); Python's `if not schedule_annotation`
treats that like the empty string. -/
def is_schedule_active_opt (s : Option String) (now : PyDateTime) : Bool :=
  match s with
  | none => false
  | some s => is_schedule_active s now

example : parse_schedule "2026;Dec;Fri;13;09:00" =
    ⟨"2026", "dec", "fri", "13", some "09:00"⟩ := by decide

example : is_schedule_active "2026;Dec;Fri;13;09:00" ⟨2026, 12, 11, 9, 0, 0, 0⟩ = false := by
  decide

example : is_schedule_active "2026;Dec;Fri;11;09:00" ⟨2026, 12, 11, 9, 0, 0, 0⟩ = true := by
  decide

/-! ### Resource state payloads (operator.py state getters) -/

/-- The kind-specific snapshot payload: `{'replicas': n}` for
Deployments and StatefulSets, `{'suspend': b}` for CronJobs, and
`{'spec': ...}` for HorizontalPodAutoscalers (the spec dictionary is
kept abstract as its serialized form). -/
inductive ResourceState where
  | replicas (n : Nat)
  | suspend (b : Bool)
  | hpaSpec (spec : String)
deriving DecidableEq

/-- Python `x or d` for an optional integer field: `None` and `0` are
falsy, so both yield the default. -/
def pyOrNat (v : Option Nat) (d : Nat) : Nat :=
  match v with
  | some n => if n = 0 then d else n
  | none => d

/-- Python `x or d` for an optional boolean field: `None` and `False`
are falsy, so both yield the default. -/
def pyOrBool (v : Option Bool) (d : Bool) : Bool :=
  match v with
  | some b => if b then b else d
  | none => d

/-- `get_deployment_state` (operator.py lines 489-495) applied to the
`spec.replicas` field of the Deployment read from the API:
`{'replicas': dep.spec.replicas or 1}`. -/
def get_deployment_state (replicas : Option Nat) : ResourceState :=
  .replicas (pyOrNat replicas 1)

/-- `get_statefulset_state` (operator.py lines 498-504):
`{'replicas': sts.spec.replicas or 1}`. -/
def get_statefulset_state (replicas : Option Nat) : ResourceState :=
  .replicas (pyOrNat replicas 1)

/-- `get_cronjob_state` (operator.py lines 531-537):
`{'suspend': cj.spec.suspend or False}`. -/
def get_cronjob_state (suspend : Option Bool) : ResourceState :=
  .suspend (pyOrBool suspend false)

/-! ### HPA scaling (`scale_hpa`, operator.py lines 570-613) -/

/-- Result of the one API call that `scale_hpa` issues: success or an
`ApiException` with an HTTP status code. -/
inductive ApiOutcome where
  | success
  | err (status : Nat)
deriving DecidableEq

/-- What `scale_hpa` did, reflecting its logging: warnings mark the
states treated as already satisfied, errors the real failures. -/
inductive HpaResult where
  | deleted
  | deleteAlreadyGone
  | deleteError (status : Nat)
  | created
  | createConflictOk
  | createError (status : Nat)
  | invalidState
deriving DecidableEq

/-- Whether the result is reported as an error (`logger.error`) rather
than success or a warning treated as success. -/
def HpaResult.isError : HpaResult → Bool
  | .deleteError _ => true
  | .createError _ => true
  | .invalidState => true
  | _ => false

/-- `scale_hpa` (operator.py lines 570-613): on `down` delete the HPA,
treating a 404 as already gone; otherwise re-create it from the
backed-up `spec`, treating a 409 conflict as idempotent success.
`api` is the outcome of the delete or create call. -/
def scale_hpa (direction : String) (state : Option ResourceState)
    (api : ApiOutcome) : HpaResult :=
  if direction = "down" then
    match api with
    | .success => .deleted
    | .err s => if s = 404 then .deleteAlreadyGone else .deleteError s
  else
    match state with
    | some (.hpaSpec _) =>
      match api with
      | .success => .created
      | .err s => if s = 409 then .createConflictOk else .createError s
    | _ => .invalidState

/-! ### Backup naming (`backup_state`, operator.py lines 398-438) -/

/-- Python `datetime.now(pytz.utc).strftime('%Y%m%d-%H%M%S')`: the
timestamp to the second; sub-second precision is dropped. -/
def fmtBackupTs (dt : PyDateTime) : String :=
  pad4 dt.year ++ pad2 dt.month ++ pad2 dt.day ++ "-" ++
    pad2 dt.hour ++ pad2 dt.minute ++ pad2 dt.second

/-- The ConfigMap name built by `backup_state` (operator.py line 415):
`f"{CONFIGMAP_PREFIX}-{kind.lower()}-{name}-{now_utc_str}"` with the
constant "ks-backup". -/
def backup_cm_name (kind name : String) (dt : PyDateTime) : String :=
  "ks-backup" ++ "-" ++ pyLower kind ++ "-" ++ name ++ "-" ++ fmtBackupTs dt

/-- The field ranges every Python `datetime.datetime` value satisfies
(year 1..9999, month 1..12, day 1..31, hour < 24, minute and second
< 60, microsecond < 10^6); `backup_state` formats such a value. -/
def PyDateTime.Valid (dt : PyDateTime) : Prop :=
  1 ≤ dt.year ∧ dt.year ≤ 9999 ∧ 1 ≤ dt.month ∧ dt.month ≤ 12 ∧
  1 ≤ dt.day ∧ dt.day ≤ 31 ∧ dt.hour ≤ 23 ∧ dt.minute ≤ 59 ∧
  dt.second ≤ 59 ∧ dt.microsecond ≤ 999999

instance (dt : PyDateTime) : Decidable dt.Valid := by
  unfold PyDateTime.Valid
  infer_instance

/-- The four resource kinds the orchestrator processes (the keys of
`resource_processors`, operator.py lines 283-288) — the only kind
strings `backup_state` is ever called with. -/
def supportedKinds : List String :=
  ["Deployment", "StatefulSet", "HorizontalPodAutoscaler", "CronJob"]

/-- The first hyphen-free segment after the 10-character "ks-backup-"
prefix of a backup ConfigMap name. For the names `backup_state` builds
this recovers the lowercased kind, since no supported kind contains a
hyphen. -/
def kindSegment (s : String) : List Char :=
  (s.data.drop 10).takeWhile (fun c => c != '-')

/-! ### Retention pruning (`prune_old_backups`, operator.py lines 359-395) -/

/-- One backup ConfigMap as the pruner sees it: its name and its
creation timestamp. The timestamp may be absent; Python substitutes
`datetime.min`, modelled by `Option.getD 0`. -/
structure BackupCM where
  name : String
  creationTimestamp : Option Nat
deriving DecidableEq

/-- The sort key of `prune_old_backups`:
`cm.metadata.creation_timestamp or datetime.datetime.min`. -/
def cmKey (cm : BackupCM) : Nat := cm.creationTimestamp.getD 0

/-- The comparison used to sort backups ascending by creation time. -/
def cmLe (a b : BackupCM) : Bool := cmKey a ≤ cmKey b

/-- `prune_old_backups` (operator.py lines 359-395), returning the list
of ConfigMaps it selects for deletion: nothing when the retention limit
is not positive or the count is within the limit; otherwise all but the
newest `maxRetain` of the list sorted ascending by creation time
(`sorted_cms[:-MAX_BACKUPS_TO_RETAIN]`). -/
def prune_old_backups (maxRetain : Int) (cms : List BackupCM) : List BackupCM :=
  if maxRetain ≤ 0 then []
  else if (cms.length : Int) ≤ maxRetain then []
  else (cms.mergeSort cmLe).take (cms.length - maxRetain.toNat)

/-- The backups a pruning pass leaves in place: the complement of
`prune_old_backups` in the sorted list. -/
def backupsKept (maxRetain : Int) (cms : List BackupCM) : List BackupCM :=
  if maxRetain ≤ 0 then cms
  else if (cms.length : Int) ≤ maxRetain then cms
  else (cms.mergeSort cmLe).drop (cms.length - maxRetain.toNat)

/-! ### Per-resource orchestration (`process_single_resource`,
operator.py lines 305-354)

The calls the orchestrator issues for one resource in one tick are
reified as a list of actions in program order. The two reads it
performs — the state getter and the latest-backup lookup — are supplied
as inputs, since their values come from the cluster. -/

/-- The annotation keys (operator.py lines 20-22). -/
def ANNOTATION_NS_CONTROL : String := "ks_scale"

/-- The scale-up schedule annotation key. -/
def ANNOTATION_SCALE_UP : String := "ks_scale_up"

/-- The scale-down schedule annotation key. -/
def ANNOTATION_SCALE_DOWN : String := "ks_scale_down"

/-- One externally visible step taken for a resource: saving a backup
snapshot, invoking the kind's scaler with a direction, or logging the
no-backup warning. -/
inductive Action where
  | backup (ns kind name : String) (state : ResourceState)
  | scale (kind ns name direction : String) (state : Option ResourceState)
  | warnNoBackup (kind name : String)
deriving DecidableEq

/-- The scale direction of an action, when it is a scaler invocation. -/
def Action.scaleDir : Action → Option String
  | .scale _ _ _ d _ => some d
  | _ => none

/-- Whether an action is a scaler invocation. -/
def Action.isScale : Action → Bool
  | .scale _ _ _ _ _ => true
  | _ => false

/-- Whether an action is a backup save. -/
def Action.isBackup : Action → Bool
  | .backup _ _ _ _ => true
  | _ => false

/-- `process_single_resource` (operator.py lines 305-354) as the list of
actions issued, in order. `ann` is the resource's annotation map,
`currentState` the result of the state getter, `latestBackup` the
result of `find_latest_backup_state`. A resource annotated
`ks_scale: Disable` is skipped; the scale-down schedule is checked
first, and on a match the state is read, backed up, and the scaler
called with `down`; only otherwise is the scale-up schedule checked,
and on a match the latest backup restored or a warning logged. -/
def process_single_resource (ann : String → Option String)
    (ns kind name : String) (now : PyDateTime)
    (currentState latestBackup : Option ResourceState) : List Action :=
  if ann ANNOTATION_NS_CONTROL = some "Disable" then []
  else if is_schedule_active_opt (ann ANNOTATION_SCALE_DOWN) now then
    match currentState with
    | some st =>
      [Action.backup ns kind name st, Action.scale kind ns name "down" none]
    | none => []
  else if is_schedule_active_opt (ann ANNOTATION_SCALE_UP) now then
    match latestBackup with
    | none => [Action.warnNoBackup kind name]
    | some st => [Action.scale kind ns name "up" (some st)]
  else []

/-! ### Concrete fixtures used to evaluate the theorems on closed inputs -/

/-- An instant at 09:00 UTC on Friday 2026-12-11. -/
def exampleNow : PyDateTime := ⟨2026, 12, 11, 9, 0, 0, 0⟩

/-- An annotation map whose scale-down and scale-up schedules both match
any instant at 09:00 UTC. -/
def annBothSchedules : String → Option String := fun k =>
  if k = "ks_scale_down" then some "09:00"
  else if k = "ks_scale_up" then some "09:00"
  else none

/-- An annotation map carrying only a scale-up schedule at 09:00 UTC. -/
def annUpOnly : String → Option String := fun k =>
  if k = "ks_scale_up" then some "09:00" else none

/-- Seven backups of one resource with increasing creation timestamps. -/
def exampleBackups : List BackupCM :=
  [⟨"b1", some 1⟩, ⟨"b2", some 2⟩, ⟨"b3", some 3⟩, ⟨"b4", some 4⟩,
   ⟨"b5", some 5⟩, ⟨"b6", some 6⟩, ⟨"b7", some 7⟩]

/-- Two schedule tokens whose relative order cannot matter: they fall
into distinct classification categories, or at least one is skipped by
the classifier. -/
def TokensIndependent (x y : String) : Prop :=
  tokCat x ≠ tokCat y ∨ tokCat x = TokCat.skip ∨ tokCat y = TokCat.skip

instance : DecidableRel TokensIndependent := fun x y => by
  unfold TokensIndependent
  infer_instance

/-! ### Shared helper lemmas -/

/-- `Nat.toDigitsCore` ignores its fuel as long as it exceeds the
number being printed. -/
theorem toDigitsCore10_fuel_eq :
    ∀ (f1 f2 n : Nat) (acc : List Char), n < f1 → n < f2 →
      Nat.toDigitsCore 10 f1 n acc = Nat.toDigitsCore 10 f2 n acc := by
  intro f1
  induction f1 with
  | zero => intro f2 n acc h1 h2; omega
  | succ f1 ih =>
    intro f2 n acc h1 h2
    cases f2 with
    | zero => omega
    | succ f2 =>
      simp only [Nat.toDigitsCore]
      by_cases h : n / 10 = 0
      · rw [if_pos h, if_pos h]
      · rw [if_neg h, if_neg h]
        exact ih f2 (n / 10) _ (by omega) (by omega)

/-- The decimal representation of `n` with `10 ^ e ≤ n < 10 ^ (e + 1)`
has exactly `e + 1` digits. -/
theorem toDigits10_length :
    ∀ (e n : Nat), 10 ^ e ≤ n → n < 10 ^ (e + 1) →
      (Nat.toDigits 10 n).length = e + 1 := by
  intro e
  induction e with
  | zero =>
    intro n h1 h2
    simp only [pow_zero, pow_one] at h1 h2
    have h : n / 10 = 0 := by omega
    simp [Nat.toDigits, Nat.toDigitsCore, h]
  | succ e ih =>
    intro n h1 h2
    have hpe : 1 ≤ 10 ^ e := Nat.one_le_pow e 10 (by norm_num)
    have h1' : 10 ^ e * 10 ≤ n := by rw [← pow_succ]; exact h1
    have h2' : n < 10 ^ e * 10 * 10 := by rw [← pow_succ, ← pow_succ]; exact h2
    have hne : ¬ n / 10 = 0 := by omega
    have hdiv1 : 10 ^ e ≤ n / 10 := by omega
    have hdiv2 : n / 10 < 10 ^ (e + 1) := by rw [pow_succ]; omega
    have hih := ih (n / 10) hdiv1 hdiv2
    simp only [Nat.toDigits] at hih ⊢
    simp only [Nat.toDigitsCore]
    rw [if_neg hne]
    rw [toDigitsCore10_fuel_eq n (n / 10 + 1) (n / 10) _ (by omega) (Nat.lt_succ_self _)]
    rw [Nat.toDigitsCore_lens_eq, hih]

/-- The length of `str(n)` for each magnitude used in the timestamp. -/
theorem toString_nat_length (n : Nat) :
    (n ≤ 9 → (toString n).length = 1) ∧
    (10 ≤ n → n ≤ 99 → (toString n).length = 2) ∧
    (100 ≤ n → n ≤ 999 → (toString n).length = 3) ∧
    (1000 ≤ n → n ≤ 9999 → (toString n).length = 4) := by
  have key : ∀ e, 10 ^ e ≤ n → n < 10 ^ (e + 1) → (toString n).length = e + 1 := by
    intro e he1 he2
    show (Nat.repr n).length = e + 1
    have := toDigits10_length e n he1 he2
    simpa [Nat.repr, List.length_asString] using this
  refine ⟨fun h => ?_, fun h1 h2 => ?_, fun h1 h2 => ?_, fun h1 h2 => ?_⟩
  · rcases Nat.eq_zero_or_pos n with h0 | h0
    · subst h0; rfl
    · exact key 0 (by norm_num; omega) (by norm_num; omega)
  · exact key 1 (by norm_num; omega) (by norm_num; omega)
  · exact key 2 (by norm_num; omega) (by norm_num; omega)
  · exact key 3 (by norm_num; omega) (by norm_num; omega)

/-- Zero-padding to two digits yields exactly two characters on the
whole domain `datetime` supplies. -/
theorem pad2_length {n : Nat} (h : n ≤ 99) : (pad2 n).length = 2 := by
  unfold pad2
  by_cases h10 : n < 10
  · rw [if_pos h10]
    rw [String.length_append, (toString_nat_length n).1 (by omega)]
    rfl
  · rw [if_neg h10]
    exact (toString_nat_length n).2.1 (by omega) h

/-- Zero-padding to four digits yields exactly four characters for
every year `datetime` can hold. -/
theorem pad4_length {n : Nat} (h : n ≤ 9999) : (pad4 n).length = 4 := by
  unfold pad4
  by_cases ha : n < 10
  · rw [if_pos ha, String.length_append, (toString_nat_length n).1 (by omega)]
    rfl
  · rw [if_neg ha]
    by_cases hb : n < 100
    · rw [if_pos hb, String.length_append,
        (toString_nat_length n).2.1 (by omega) (by omega)]
      rfl
    · rw [if_neg hb]
      by_cases hc : n < 1000
      · rw [if_pos hc, String.length_append,
          (toString_nat_length n).2.2.1 (by omega) (by omega)]
        rfl
      · rw [if_neg hc]
        exact (toString_nat_length n).2.2.2 (by omega) h

/-- The backup timestamp of a valid instant always formats to exactly
15 characters (`YYYYmmdd-HHMMSS`). -/
theorem fmtBackupTs_length {t : PyDateTime} (h : t.Valid) :
    (fmtBackupTs t).length = 15 := by
  obtain ⟨-, hy, -, hmo, -, hd, hh, hmi, hs, -⟩ := h
  unfold fmtBackupTs
  simp only [String.length_append]
  rw [pad4_length hy, pad2_length (show t.month ≤ 99 by omega),
    pad2_length (show t.day ≤ 99 by omega),
    pad2_length (show t.hour ≤ 99 by omega),
    pad2_length (show t.minute ≤ 99 by omega),
    pad2_length (show t.second ≤ 99 by omega)]
  rfl

/-- The character list of a backup name, split as constant prefix,
lowered kind, resource name and timestamp. -/
theorem backup_cm_name_data (kind name : String) (t : PyDateTime) :
    (backup_cm_name kind name t).data =
      ("ks-backup".data ++ "-".data ++ (pyLower kind).data ++ "-".data) ++
        (name.data ++ "-".data ++ (fmtBackupTs t).data) := by
  simp [backup_cm_name, String.data_append, List.append_assoc]

/-- On names built by `backup_state` for a supported kind, the segment
after the constant prefix and before the next hyphen is exactly the
lowered kind. -/
theorem kindSegment_backup_cm_name :
    ∀ k ∈ supportedKinds, ∀ (n : String) (t : PyDateTime),
      kindSegment (backup_cm_name k n t) = (pyLower k).data := by
  intro k hk n t
  have hsplit := backup_cm_name_data k n t
  simp only [supportedKinds, List.mem_cons, List.not_mem_nil, or_false] at hk
  rcases hk with rfl | rfl | rfl | rfl <;>
    · unfold kindSegment
      rw [hsplit]
      rfl

/-- Distinct supported kinds have distinct lowered character lists. -/
theorem supportedKinds_lower_inj :
    ∀ k1 ∈ supportedKinds, ∀ k2 ∈ supportedKinds,
      (pyLower k1).data = (pyLower k2).data → k1 = k2 := by
  decide

/-- If the comma-separated token list of a month or day-of-week spec
contains the empty token, the prefix test succeeds for every current
abbreviation, because every string starts with the empty string. -/
theorem specListMatches_of_empty_mem (spec cur : String)
    (h : "" ∈ (pySplit spec ',').map pyTrim) :
    specListMatches spec cur = true := by
  unfold specListMatches
  rw [List.any_eq_true]
  refine ⟨"", h, ?_⟩
  simp [strStartsWith, pyTake, List.isPrefixOf]

/-- `TokensIndependent` is symmetric. -/
theorem tokensIndependent_symm : Symmetric TokensIndependent := by
  intro x y h
  rcases h with h | h | h
  · exact Or.inl (Ne.symm h)
  · exact Or.inr (Or.inr h)
  · exact Or.inr (Or.inl h)

/-- Independent tokens may be applied to the accumulator in either
order: they update different fields, or one is a no-op. -/
theorem applyTok_comm {x y : String} (h : TokensIndependent x y) (a : Spec4) :
    applyTok (applyTok a x) y = applyTok (applyTok a y) x := by
  unfold TokensIndependent at h
  unfold applyTok
  cases h1 : tokCat x <;> cases h2 : tokCat y <;> rw [h1, h2] at h <;> simp_all

/-- The backup sort comparison is transitive. -/
theorem cmLe_trans : ∀ a b c, cmLe a b → cmLe b c → cmLe a c := by
  intro a b c hab hbc
  simp only [cmLe, decide_eq_true_eq] at *
  omega

/-- The backup sort comparison is total. -/
theorem cmLe_total : ∀ a b, cmLe a b || cmLe b a := by
  intro a b
  simp only [cmLe, Bool.or_eq_true, decide_eq_true_eq]
  omega

/-! ### Claim C4 — evaluator examples -/

/-- C4, counterexample: the claim asserts the schedule
"2026;Dec;Fri;13;09:00" is active at 2026-12-11T09:00:00Z, but its
day-of-month list {13} does not contain the current day 11, so the
evaluator rejects it. -/
theorem C4_counterexample :
    is_schedule_active "2026;Dec;Fri;13;09:00" ⟨2026, 12, 11, 9, 0, 0, 0⟩ = false := by
  decide

/-- C4, amended: with the day-of-month token matching the instant (11),
the schedule is active at 2026-12-11T09:00:00Z (a Friday); at 09:01 it is
not; and with the day-of-month token changed to 14 it is not active at
2026-12-11T09:00:00Z. -/
theorem C4_evaluator_examples :
    is_schedule_active "2026;Dec;Fri;11;09:00" ⟨2026, 12, 11, 9, 0, 0, 0⟩ = true ∧
    is_schedule_active "2026;Dec;Fri;11;09:00" ⟨2026, 12, 11, 9, 1, 0, 0⟩ = false ∧
    is_schedule_active "2026;Dec;Fri;14;09:00" ⟨2026, 12, 11, 9, 0, 0, 0⟩ = false := by
  decide

/-! ### Claim C7 — HPA delete/create error handling -/

/-- C7: scale-down deletes the autoscaler and treats a 404 on the delete
as already satisfied; every other error status on the delete is a
failure. Scale-up re-creates the autoscaler from the restored spec and
treats a 409 conflict as idempotent success; every other error status on
the create is a failure. -/
theorem C7_scale_hpa_errors (st : Option ResourceState) (sp : String) (s : Nat) :
    scale_hpa "down" st ApiOutcome.success = HpaResult.deleted ∧
    (scale_hpa "down" st (ApiOutcome.err 404)).isError = false ∧
    (s ≠ 404 → (scale_hpa "down" st (ApiOutcome.err s)).isError = true) ∧
    scale_hpa "up" (some (ResourceState.hpaSpec sp)) ApiOutcome.success = HpaResult.created ∧
    (scale_hpa "up" (some (ResourceState.hpaSpec sp)) (ApiOutcome.err 409)).isError = false ∧
    (s ≠ 409 → (scale_hpa "up" (some (ResourceState.hpaSpec sp)) (ApiOutcome.err s)).isError = true) := by
  refine ⟨rfl, rfl, fun hs => ?_, rfl, rfl, fun hs => ?_⟩
  · simp [scale_hpa, hs, HpaResult.isError]
  · simp [scale_hpa, hs, HpaResult.isError]

/-- C7, witness: a 500 on the delete and a 500 on the create are both
reported as errors. -/
theorem C7_witness :
    (scale_hpa "down" none (ApiOutcome.err 500)).isError = true ∧
    (scale_hpa "up" (some (ResourceState.hpaSpec "x")) (ApiOutcome.err 500)).isError = true :=
  ⟨(C7_scale_hpa_errors none "x" 500).2.2.1 (by decide),
   (C7_scale_hpa_errors none "x" 500).2.2.2.2.2 (by decide)⟩

/-! ### Claim C8 — backup ConfigMap naming -/

/-- C8, counterexample: two distinct save instants within the same
second (differing only in microseconds) produce the same backup
ConfigMap name for the same resource, so rapid repeated scale-downs can
collide. -/
theorem C8_counterexample :
    (⟨2026, 12, 11, 9, 0, 0, 0⟩ : PyDateTime) ≠ ⟨2026, 12, 11, 9, 0, 0, 500000⟩ ∧
    backup_cm_name "Deployment" "web" ⟨2026, 12, 11, 9, 0, 0, 0⟩ =
      backup_cm_name "Deployment" "web" ⟨2026, 12, 11, 9, 0, 0, 500000⟩ := by
  constructor
  · decide
  · rfl

/-- C8, amended: across a whole namespace, two backup-save operations
(for supported kinds and real datetime field ranges) get distinct
ConfigMap names whenever they differ in resource kind, resource name,
or second-granularity formatted timestamp — equal names force equal
kind (the hyphen-free kind is the segment after the constant prefix),
equal timestamp (the fixed-length 15-character suffix) and equal name
(the remainder). Only saves of the same resource within the same
formatted second collide, as rapid repeated scale-downs can. -/
theorem C8_backup_names_distinct (k1 k2 n1 n2 : String) (t1 t2 : PyDateTime)
    (hk1 : k1 ∈ supportedKinds) (hk2 : k2 ∈ supportedKinds)
    (hv1 : t1.Valid) (hv2 : t2.Valid)
    (hops : ¬(k1 = k2 ∧ n1 = n2 ∧ fmtBackupTs t1 = fmtBackupTs t2)) :
    backup_cm_name k1 n1 t1 ≠ backup_cm_name k2 n2 t2 := by
  intro heq
  have hdata := congrArg String.data heq
  have hkind : k1 = k2 := by
    apply supportedKinds_lower_inj k1 hk1 k2 hk2
    have h1 := kindSegment_backup_cm_name k1 hk1 n1 t1
    have h2 := kindSegment_backup_cm_name k2 hk2 n2 t2
    rw [← h1, ← h2]
    unfold kindSegment
    rw [hdata]
  subst hkind
  rw [backup_cm_name_data, backup_cm_name_data] at hdata
  have hrest := List.append_cancel_left hdata
  have hlen : (fmtBackupTs t1).data.length = (fmtBackupTs t2).data.length := by
    show (fmtBackupTs t1).length = (fmtBackupTs t2).length
    rw [fmtBackupTs_length hv1, fmtBackupTs_length hv2]
  have hsplit := List.append_inj' hrest hlen
  have hname : n1 = n2 := String.ext (List.append_inj' hsplit.1 rfl).1
  exact hops ⟨rfl, hname, String.ext hsplit.2⟩

/-- C8, witness: a save one second later, and a save of a different
kind at the same instant, both get distinct names. -/
theorem C8_witness :
    (backup_cm_name "Deployment" "web" ⟨2026, 12, 11, 9, 0, 0, 0⟩ ≠
      backup_cm_name "Deployment" "web" ⟨2026, 12, 11, 9, 0, 1, 0⟩) ∧
    (backup_cm_name "Deployment" "web" ⟨2026, 12, 11, 9, 0, 0, 0⟩ ≠
      backup_cm_name "StatefulSet" "web" ⟨2026, 12, 11, 9, 0, 0, 0⟩) :=
  ⟨C8_backup_names_distinct "Deployment" "Deployment" "web" "web" _ _
      (by decide) (by decide) (by decide) (by decide) (by decide),
   C8_backup_names_distinct "Deployment" "StatefulSet" "web" "web" _ _
      (by decide) (by decide) (by decide) (by decide) (by decide)⟩

/-! ### Claim C9 — state getters and their defaults -/

/-- C9, counterexample: a Deployment whose `spec.replicas` is set to 0
reads back as `{replicas: 1}`, not its current replica count 0, because
Python's `or` treats 0 as falsy; so the default is not used only when
the field is unset. -/
theorem C9_counterexample :
    get_deployment_state (some 0) = ResourceState.replicas 1 ∧
    get_deployment_state (some 0) ≠ ResourceState.replicas 0 := by
  decide

/-- C9, amended: Deployment and StatefulSet state is the current replica
count, with the default 1 used when the field is unset or set to 0
(both falsy in Python); CronJob state is the current suspend flag, with
false when the flag is unset. -/
theorem C9_state_getters (n : Nat) (hn : n ≠ 0) (b : Bool) :
    get_deployment_state (some n) = ResourceState.replicas n ∧
    get_deployment_state none = ResourceState.replicas 1 ∧
    get_deployment_state (some 0) = ResourceState.replicas 1 ∧
    get_statefulset_state (some n) = ResourceState.replicas n ∧
    get_statefulset_state none = ResourceState.replicas 1 ∧
    get_statefulset_state (some 0) = ResourceState.replicas 1 ∧
    get_cronjob_state (some b) = ResourceState.suspend b ∧
    get_cronjob_state none = ResourceState.suspend false := by
  refine ⟨?_, rfl, rfl, ?_, rfl, rfl, ?_, rfl⟩
  · simp [get_deployment_state, pyOrNat, hn]
  · simp [get_statefulset_state, pyOrNat, hn]
  · cases b <;> rfl

/-- C9, witness: a Deployment with 4 replicas reads back as 4. -/
theorem C9_witness :
    get_deployment_state (some 4) = ResourceState.replicas 4 :=
  (C9_state_getters 4 (by decide) true).1

/-- The four possible action sequences for one resource in one tick:
nothing, backup-then-scale-down, the no-backup warning, or a single
scale-up call; the latter two only when the scale-down schedule did not
match. -/
theorem process_single_resource_cases (ann : String → Option String)
    (ns kind name : String) (now : PyDateTime) (cs lb : Option ResourceState) :
    process_single_resource ann ns kind name now cs lb = [] ∨
    (∃ st, cs = some st ∧
      is_schedule_active_opt (ann ANNOTATION_SCALE_DOWN) now = true ∧
      process_single_resource ann ns kind name now cs lb =
        [Action.backup ns kind name st, Action.scale kind ns name "down" none]) ∨
    (is_schedule_active_opt (ann ANNOTATION_SCALE_DOWN) now = false ∧
      process_single_resource ann ns kind name now cs lb =
        [Action.warnNoBackup kind name]) ∨
    (∃ st, is_schedule_active_opt (ann ANNOTATION_SCALE_DOWN) now = false ∧
      process_single_resource ann ns kind name now cs lb =
        [Action.scale kind ns name "up" (some st)]) := by
  unfold process_single_resource
  split
  · exact Or.inl rfl
  · split
    · next h =>
      cases cs with
      | some st => exact Or.inr (Or.inl ⟨st, rfl, h, rfl⟩)
      | none => exact Or.inl rfl
    · next h =>
      have hf : is_schedule_active_opt (ann ANNOTATION_SCALE_DOWN) now = false :=
        (Bool.not_eq_true _).mp h
      split
      · cases lb with
        | none => exact Or.inr (Or.inr (Or.inl ⟨hf, rfl⟩))
        | some st => exact Or.inr (Or.inr (Or.inr ⟨st, hf, rfl⟩))
      · exact Or.inl rfl

/-! ### Claim C1 — backup precedes the scale-down call -/

/-- C1: in the action sequence the orchestrator issues for one resource
in one tick, every scale-down call is preceded by a backup save, so the
scale-down mutation is never issued without a prior backup of the
pre-scale state. -/
theorem C1_backup_before_scale_down (ann : String → Option String)
    (ns kind name : String) (now : PyDateTime)
    (cs lb : Option ResourceState) (i : Nat) (a : Action)
    (hi : (process_single_resource ann ns kind name now cs lb).get? i = some a)
    (hd : a.scaleDir = some "down") :
    ∃ j, j < i ∧ ∃ b : Action,
      (process_single_resource ann ns kind name now cs lb).get? j = some b ∧
      b.isBackup = true := by
  rcases process_single_resource_cases ann ns kind name now cs lb with
    htr | ⟨st, _, _, htr⟩ | ⟨_, htr⟩ | ⟨st, _, htr⟩
  · rw [htr] at hi; simp at hi
  · rw [htr] at hi
    match i, hi with
    | 0, hi =>
      simp only [List.get?] at hi
      cases hi
      simp [Action.scaleDir] at hd
    | 1, hi =>
      refine ⟨0, Nat.zero_lt_one, Action.backup ns kind name st, ?_, rfl⟩
      rw [htr]; rfl
    | n + 2, hi => simp [List.get?] at hi
  · rw [htr] at hi
    match i, hi with
    | 0, hi =>
      simp only [List.get?] at hi
      cases hi
      simp [Action.scaleDir] at hd
    | n + 1, hi => simp [List.get?] at hi
  · rw [htr] at hi
    match i, hi with
    | 0, hi =>
      simp only [List.get?] at hi
      cases hi
      simp [Action.scaleDir] at hd
    | n + 1, hi => simp [List.get?] at hi

/-- C1, witness: with both state available and the scale-down schedule
matching, the scale call sits at index 1 and a backup precedes it. -/
theorem C1_witness :
    ∃ j, j < 1 ∧ ∃ b : Action,
      (process_single_resource annBothSchedules "default" "Deployment" "web"
        exampleNow (some (ResourceState.replicas 4)) none).get? j = some b ∧
      b.isBackup = true :=
  C1_backup_before_scale_down annBothSchedules "default" "Deployment" "web"
    exampleNow (some (ResourceState.replicas 4)) none 1
    (Action.scale "Deployment" "default" "web" "down" none)
    (by decide) (by decide)

/-! ### Claim C3 — at most one scale direction per tick -/

/-- C3: the scale-down schedule is evaluated first; when it is active no
scale-up call is issued for that resource in that tick, even if the
scale-up schedule also matches, and in every tick all scale calls for
the resource agree on one direction. -/
theorem C3_one_direction (ann : String → Option String)
    (ns kind name : String) (now : PyDateTime)
    (cs lb : Option ResourceState) :
    (is_schedule_active_opt (ann ANNOTATION_SCALE_DOWN) now = true →
      ∀ a ∈ process_single_resource ann ns kind name now cs lb,
        a.scaleDir ≠ some "up") ∧
    (∀ a ∈ process_single_resource ann ns kind name now cs lb,
      ∀ b ∈ process_single_resource ann ns kind name now cs lb,
      ∀ d₁ d₂, a.scaleDir = some d₁ → b.scaleDir = some d₂ → d₁ = d₂) := by
  rcases process_single_resource_cases ann ns kind name now cs lb with
    htr | ⟨st, _, _, htr⟩ | ⟨hf, htr⟩ | ⟨st, hf, htr⟩ <;> rw [htr] <;> constructor
  · intro _ a ha; simp at ha
  · intro a ha b hb d₁ d₂ hda hdb; simp at ha
  · intro _ a ha
    rcases List.mem_pair.mp ha with rfl | rfl <;> simp [Action.scaleDir]
  · intro a ha b hb d₁ d₂ hda hdb
    rcases List.mem_pair.mp ha with rfl | rfl <;>
      rcases List.mem_pair.mp hb with rfl | rfl <;>
      simp_all [Action.scaleDir]
  · intro hdown; rw [hdown] at hf; cases hf
  · intro a ha b hb d₁ d₂ hda hdb
    rw [List.mem_singleton] at ha hb
    subst ha; subst hb
    simp [Action.scaleDir] at hda
  · intro hdown; rw [hdown] at hf; cases hf
  · intro a ha b hb d₁ d₂ hda hdb
    rw [List.mem_singleton] at ha hb
    subst ha; subst hb
    simp [Action.scaleDir] at hda hdb
    rw [← hda, ← hdb]

/-- C3, witness: with both schedules matching at 09:00, the tick issues
no scale-up call. -/
theorem C3_witness :
    ∀ a ∈ process_single_resource annBothSchedules "default" "Deployment" "web"
        exampleNow (some (ResourceState.replicas 4)) (some (ResourceState.replicas 2)),
      a.scaleDir ≠ some "up" :=
  (C3_one_direction annBothSchedules "default" "Deployment" "web" exampleNow
    (some (ResourceState.replicas 4)) (some (ResourceState.replicas 2))).1 (by decide)

/-! ### Claim C6 — scale-up without a backup takes no action -/

/-- C6: when the resource is not disabled, the scale-down schedule is
inactive, the scale-up schedule is active, and no backup exists, the
orchestrator only logs the no-backup warning: no scale call and no
backup save is issued. -/
theorem C6_no_backup_no_action (ann : String → Option String)
    (ns kind name : String) (now : PyDateTime) (cs : Option ResourceState)
    (hdis : ann ANNOTATION_NS_CONTROL ≠ some "Disable")
    (hdown : is_schedule_active_opt (ann ANNOTATION_SCALE_DOWN) now = false)
    (hup : is_schedule_active_opt (ann ANNOTATION_SCALE_UP) now = true) :
    process_single_resource ann ns kind name now cs none =
      [Action.warnNoBackup kind name] ∧
    ∀ a ∈ process_single_resource ann ns kind name now cs none,
      a.isScale = false ∧ a.isBackup = false := by
  have htr : process_single_resource ann ns kind name now cs none =
      [Action.warnNoBackup kind name] := by
    unfold process_single_resource
    rw [if_neg hdis, hdown, if_neg (by simp), if_pos hup]
  refine ⟨htr, ?_⟩
  rw [htr]
  intro a ha
  rw [List.mem_singleton] at ha
  subst ha
  exact ⟨rfl, rfl⟩

/-- C6, witness: a resource with only a scale-up schedule matching and
no stored backup yields exactly the warning action. -/
theorem C6_witness :
    process_single_resource annUpOnly "default" "Deployment" "web"
      exampleNow (some (ResourceState.replicas 4)) none =
      [Action.warnNoBackup "Deployment" "web"] :=
  (C6_no_backup_no_action annUpOnly "default" "Deployment" "web" exampleNow
    (some (ResourceState.replicas 4)) (by decide) (by decide) (by decide)).1

/-! ### Claim C10 — empty comma-separated tokens match everything -/

/-- C10: an empty token in a month or day-of-week list makes that
field's test succeed at every instant (the current abbreviation always
starts with the empty prefix), so a schedule such as "dec,;09:00"
behaves exactly as if the month field were the wildcard. -/
theorem C10_empty_token_matches_all :
    (∀ spec cur : String, "" ∈ (pySplit spec ',').map pyTrim →
      specListMatches spec cur = true) ∧
    (∀ now : PyDateTime,
      is_schedule_active "dec,;09:00" now = is_schedule_active "09:00" now) := by
  refine ⟨specListMatches_of_empty_mem, ?_⟩
  intro now
  show scheduleActiveSpec ⟨"*", "dec,", "*", "*", some "09:00"⟩ now =
    scheduleActiveSpec ⟨"*", "*", "*", "*", some "09:00"⟩ now
  have hm : specListMatches "dec," (strftimeMonthAbbrev now) = true :=
    specListMatches_of_empty_mem "dec," _ (by decide)
  unfold scheduleActiveSpec
  simp [hm]

/-- C10, witness: a trailing comma in the month list at an instant in
May, outside every listed month. -/
theorem C10_witness :
    specListMatches "dec," "may" = true ∧
    is_schedule_active "dec,;09:00" ⟨2026, 5, 4, 9, 0, 0, 0⟩ =
      is_schedule_active "09:00" ⟨2026, 5, 4, 9, 0, 0, 0⟩ :=
  ⟨C10_empty_token_matches_all.1 "dec," "may" (by decide),
   C10_empty_token_matches_all.2 ⟨2026, 5, 4, 9, 0, 0, 0⟩⟩

/-! ### Claim C5 — token order independence of parsing -/

/-- C5, counterexample: two tokens of the same category are
order-sensitive (the later one overwrites), so permuting the tokens of
"2026;2027" changes the parsed year. -/
theorem C5_counterexample :
    parse_schedule "2026;2027" ≠ parse_schedule "2027;2026" := by
  decide

/-- C5, amended: permuting the non-time tokens preserves the parsed
spec whenever no two tokens share a classification category (tokens are
classified purely by shape, but within one category the last token
wins); in particular "Dec;2026" and "2026;Dec" parse identically. -/
theorem C5_parse_order_independent :
    (∀ s₁ s₂ : String, pyIsEmpty s₁ = false → pyIsEmpty s₂ = false →
      (tokensAndTime s₁).1.Perm (tokensAndTime s₂).1 →
      (tokensAndTime s₁).2 = (tokensAndTime s₂).2 →
      (tokensAndTime s₁).1.Pairwise TokensIndependent →
      parse_schedule s₁ = parse_schedule s₂) ∧
    parse_schedule "Dec;2026" = parse_schedule "2026;Dec" := by
  refine ⟨?_, by decide⟩
  intro s₁ s₂ h1 h2 hperm htime hpair
  have comm : ∀ x ∈ (tokensAndTime s₁).1, ∀ y ∈ (tokensAndTime s₁).1, ∀ z,
      applyTok (applyTok z x) y = applyTok (applyTok z y) x := by
    intro x hx y hy z
    by_cases hxy : x = y
    · subst hxy; rfl
    · exact applyTok_comm (hpair.forall tokensIndependent_symm hx hy hxy) z
  have hf := hperm.foldl_eq' comm (⟨"*", "*", "*", "*"⟩ : Spec4)
  simp only [parse_schedule]
  rw [if_neg (by simp [h1]), if_neg (by simp [h2]), hf, htime]

/-- C5, witness: the two example schedules have permuted, independent
tokens and the same (absent) time, so the theorem applies to them. -/
theorem C5_witness :
    parse_schedule "Dec;2026" = parse_schedule "2026;Dec" :=
  C5_parse_order_independent.1 "Dec;2026" "2026;Dec" (by decide) (by decide)
    (by decide) (by decide) (by decide)

/-! ### Claim C2 — retention pruning -/

/-- C2: a non-positive retention limit disables pruning; when the
backup count is within the limit nothing is deleted; otherwise exactly
count − limit backups are selected for deletion, they together with the
kept backups are a permutation of the originals, exactly limit backups
remain, and every deleted backup is no newer than every kept one. -/
theorem C2_prune_retention (M : Int) (cms : List BackupCM) :
    (M ≤ 0 → prune_old_backups M cms = []) ∧
    ((cms.length : Int) ≤ M → prune_old_backups M cms = []) ∧
    (0 < M → M < (cms.length : Int) →
      (prune_old_backups M cms).length = cms.length - M.toNat ∧
      (backupsKept M cms).length = M.toNat ∧
      (prune_old_backups M cms ++ backupsKept M cms).Perm cms ∧
      ∀ d ∈ prune_old_backups M cms, ∀ k ∈ backupsKept M cms,
        cmKey d ≤ cmKey k) := by
  refine ⟨?_, ?_, ?_⟩
  · intro h
    unfold prune_old_backups
    rw [if_pos h]
  · intro h
    unfold prune_old_backups
    by_cases h0 : M ≤ 0
    · rw [if_pos h0]
    · rw [if_neg h0, if_pos h]
  · intro h0 hn
    have hM0 : ¬ M ≤ 0 := by omega
    have hMn : ¬ (cms.length : Int) ≤ M := by omega
    have ht : M.toNat ≤ cms.length := by omega
    unfold prune_old_backups backupsKept
    rw [if_neg hM0, if_neg hMn, if_neg hM0, if_neg hMn]
    refine ⟨?_, ?_, ?_, ?_⟩
    · rw [List.length_take, List.length_mergeSort]
      omega
    · rw [List.length_drop, List.length_mergeSort]
      omega
    · rw [List.take_append_drop]
      exact List.mergeSort_perm cms cmLe
    · intro d hd k hk
      have hs := List.sorted_mergeSort cmLe_trans cmLe_total cms
      rw [← List.take_append_drop (cms.length - M.toNat) (cms.mergeSort cmLe)] at hs
      have h3 := (List.pairwise_append.mp hs).2.2 d hd k hk
      simpa [cmLe, decide_eq_true_eq] using h3

/-- C2, witness: pruning 7 backups with a limit of 5 deletes 2, keeps
5, and keeps only backups at least as new as every deleted one. -/
theorem C2_witness :
    (prune_old_backups 5 exampleBackups).length =
      exampleBackups.length - (5 : Int).toNat ∧
    (backupsKept 5 exampleBackups).length = (5 : Int).toNat ∧
    (prune_old_backups 5 exampleBackups ++ backupsKept 5 exampleBackups).Perm
      exampleBackups ∧
    ∀ d ∈ prune_old_backups 5 exampleBackups,
      ∀ k ∈ backupsKept 5 exampleBackups, cmKey d ≤ cmKey k :=
  (C2_prune_retention 5 exampleBackups).2.2 (by decide) (by decide)

end Kubescaler
